import Mathlib

/-!
Shallow embedding of the `pl-data` F1 pull scripts
(`src/scripts/f1/pull_f1.py`, `src/scripts/f1/pull_f1_ergast_legacy.py`,
and the second legacy variant) together with proofs about the claims of
the specification.

Python JSON values are modelled by `JVal`.  Python `bool` is a subclass of
`int` with `True == 1`, `False == 0`, identical truthiness, hashing and
ordering, so JSON booleans are represented as the integers 1 and 0; JSON
numbers in the payloads of interest are integers (rounds and ids), so
numbers are modelled as `Int`.  Python dicts are modelled as association
lists (`List (String × JVal)`, first binding wins on lookup, as dict keys
are unique in any value produced by `json.loads`).
-/

/-- A Python/JSON value as handled by the scripts. -/
inductive JVal where
  | null
  | int (n : Int)
  | str (s : String)
  | arr (elems : List JVal)
  | obj (entries : List (String × JVal))

namespace JVal

/-- Python truthiness of a value (`bool(v)`): `None`, `0`, `""`, `[]`, `{}`
are falsy, everything else is truthy. -/
def truthy : JVal → Bool
  | .null => false
  | .int n => n != 0
  | .str s => s != ""
  | .arr l => !l.isEmpty
  | .obj kvs => !kvs.isEmpty

/-- Whether the value is a Python `dict` (`isinstance(v, dict)`). -/
def isObj : JVal → Bool
  | .obj _ => true
  | _ => false

/-- Whether the value is a Python `int`. -/
def isInt : JVal → Bool
  | .int _ => true
  | _ => false

/-- Whether the value is a Python `str`. -/
def isStr : JVal → Bool
  | .str _ => true
  | _ => false

/-- The integer carried by an `int` value. -/
def asInt? : JVal → Option Int
  | .int n => some n
  | _ => none

/-- The string carried by a `str` value. -/
def asStr? : JVal → Option String
  | .str s => some s
  | _ => none

/-- Whether `set.add(v)` raises `TypeError: unhashable type` in Python:
lists and dicts are unhashable. -/
def unhashable : JVal → Bool
  | .arr _ => true
  | .obj _ => true
  | _ => false

end JVal

/-- Dict lookup `d.get(k)`: `some v` for the first binding of `k`,
`none` when the key is absent. -/
def pyLookup (k : String) (kvs : List (String × JVal)) : Option JVal :=
  (kvs.find? (fun kv => kv.1 == k)).map (·.2)

/-- Subscription `v[k]` inside a `try` block: `none` models the
`KeyError`/`TypeError` raised when `v` is not a dict or lacks the key. -/
def pyIndex (v : JVal) (k : String) : Option JVal :=
  match v with
  | .obj kvs => pyLookup k kvs
  | _ => none

/-- Iteration `for x in v`: lists yield their elements, strings their
one-character substrings, dicts their keys; other values raise
`TypeError` (modelled as `none`). -/
def pyIter? : JVal → Option (List JVal)
  | .arr l => some l
  | .str s => some (s.toList.map fun c => JVal.str (String.singleton c))
  | .obj kvs => some (kvs.map fun kv => JVal.str kv.1)
  | _ => none

/-- Value of a list of decimal digit characters; `none` when the list is
empty or contains a non-digit.  Underscore digit grouping accepted by
Python `int()` is not modelled; no payload in scope uses it. -/
def decDigits? (cs : List Char) : Option Nat :=
  match cs with
  | [] => none
  | _ =>
    if cs.all Char.isDigit then
      some (cs.foldl (fun acc c => acc * 10 + (c.toNat - '0'.toNat)) 0)
    else none

/-- String with ASCII whitespace stripped from both ends (`str.strip()`
as applied by `int()`/`float()` to their argument). -/
def pyStrip (s : String) : List Char :=
  ((s.toList.dropWhile Char.isWhitespace).reverse.dropWhile Char.isWhitespace).reverse

/-- Python `int(s)` on a string: optional sign, decimal digits,
surrounding whitespace allowed; `none` models `ValueError`. -/
def pyIntOfStr? (s : String) : Option Int :=
  match pyStrip s with
  | '+' :: rest => (decDigits? rest).map Int.ofNat
  | '-' :: rest => (decDigits? rest).map fun n => -(n : Int)
  | rest => (decDigits? rest).map Int.ofNat

/-- Python `int(v)` as used on a round value: ints pass through, strings
are parsed, `None`/lists/dicts raise (`none`). -/
def pyInt? : JVal → Option Int
  | .int n => some n
  | .str s => pyIntOfStr? s
  | _ => none

/-- Digits with an optional single decimal point, as accepted by
`float()` (exponents and `inf`/`nan` are not modelled; `Retry-After`
values in scope are plain decimals).  Returns the exact rational value. -/
def decFrac? (cs : List Char) : Option ℚ :=
  match cs.splitOn '.' with
  | [ds] => (decDigits? ds).map fun n => (n : ℚ)
  | [intPart, fracPart] =>
    if intPart.isEmpty && fracPart.isEmpty then none
    else
      let ip : Option Nat := if intPart.isEmpty then some 0 else decDigits? intPart
      let fp : Option Nat := if fracPart.isEmpty then some 0 else decDigits? fracPart
      match ip, fp with
      | some i, some f => some ((i : ℚ) + (f : ℚ) / (10 : ℚ) ^ fracPart.length)
      | _, _ => none
  | _ => none

/-- Python `float(s)`: optional sign and a decimal literal, surrounding
whitespace allowed; `none` models `ValueError`. -/
def pyFloatOfStr? (s : String) : Option ℚ :=
  match pyStrip s with
  | '+' :: rest => decFrac? rest
  | '-' :: rest => (decFrac? rest).map Neg.neg
  | rest => decFrac? rest


/-!
## The resilient fetcher of `pull_f1_ergast_legacy.py`

`fetch_json` issues up to `MAX_RETRIES + 1` GET requests
(`for attempt in range(0, MAX_RETRIES + 1)`).  The outcome of each attempt is
drawn from a trace `tr : Nat → Attempt` (the response the server gives to
the `i`-th request).  The model records the argument of every
`safe_sleep(wait)` call in `waits`, the number of GETs in `requests`, and
the final outcome in `result` (`Except.error le` models the closing
`raise RuntimeError(f"Failed after retries ... Last error: {last_err}")`,
carrying the last stored exception).
-/

/-- An HTTP response: status code, the `Retry-After` header if present,
the JSON value of the body when `resp.json()` succeeds (`none` models a
parse failure), and the raw text used in error messages. -/
structure Resp where
  status : Nat
  retryAfter : Option String
  jsonBody : Option JVal
  text : String

/-- Outcome of one `SESSION.get` call: a response, or a network-level
exception (timeout, connection error). -/
inductive Attempt where
  | ok (r : Resp)
  | netErr (msg : String)

/-- The exceptions `fetch_json` can store in `last_err`. -/
inductive PyErr where
  | runtimeHttp (status : Nat) (text : String)
  | jsonParse
  | network (msg : String)
deriving DecidableEq

/-- Observable behaviour of one `fetch_json` call: final result (the
error side carries `last_err` of the final `raise`), the arguments of the
`safe_sleep` calls in order, and the number of requests issued. -/
structure FetchResult where
  result : Except (Option PyErr) JVal
  waits : List ℚ
  requests : Nat

/-- Model of `_retry_after_seconds(resp)`: `None` for an absent or empty header,
else `float(ra)` with `ValueError` mapped to `None`. -/
def retry_after_seconds (ra : Option String) : Option ℚ :=
  match ra with
  | none => none
  | some s => if s = "" then none else pyFloatOfStr? s

/-- How the outcome of one attempt steers the loop body. -/
inductive Step where
  | done (v : JVal)
  | retryRA (q : Option ℚ)
  | retry5xx
  | exc (e : PyErr)

/-- The dispatch on one attempt: 2xx returns the parsed body (a parse
failure raises into the generic handler); 429 retries with the
`Retry-After` duration when available; 5xx retries; every other status
raises `RuntimeError` — which the generic `except Exception` handler of
the same loop catches. -/
def classify : Attempt → Step
  | .netErr m => .exc (.network m)
  | .ok r =>
    if 200 ≤ r.status ∧ r.status < 300 then
      match r.jsonBody with
      | some v => .done v
      | none => .exc .jsonParse
    else if r.status = 429 then .retryRA (retry_after_seconds r.retryAfter)
    else if 500 ≤ r.status ∧ r.status < 600 then .retry5xx
    else .exc (.runtimeHttp r.status r.text)

/-- Record the request of the current attempt and its `safe_sleep(w)` call in
front of the rest of the run. -/
def addWait (w : ℚ) (rest : FetchResult) : FetchResult :=
  ⟨rest.result, w :: rest.waits, rest.requests + 1⟩

/-- One iteration of the loop body, given the classification of the
current attempt and the continuation `cont` running the remaining
attempts with an updated `last_err`: 429 waits `Retry-After` if
available else `b * 2 ^ attempt`; 5xx waits `b * 2 ^ attempt`; an
exception path waits and stores the exception, or breaks without
sleeping when `attempt >= MAX_RETRIES`. -/
def stepRun (mr : Nat) (b : ℚ) (a : Nat) (le : Option PyErr)
    (cont : Option PyErr → FetchResult) : Step → FetchResult
  | .done v => ⟨.ok v, [], 1⟩
  | .retryRA q => addWait (q.getD (b * 2 ^ a)) (cont le)
  | .retry5xx => addWait (b * 2 ^ a) (cont le)
  | .exc e =>
    if mr ≤ a then ⟨.error (some e), [], 1⟩
    else addWait (b * 2 ^ a) (cont (some e))

/-- The retry loop from attempt `a` with `f` loop iterations left and
`last_err = le`; a completed loop raises with the stored `last_err`. -/
def fetchGo (tr : Nat → Attempt) (mr : Nat) (b : ℚ) : Nat → Option PyErr → Nat → FetchResult
  | _, le, 0 => ⟨.error le, [], 0⟩
  | a, le, f + 1 =>
    stepRun mr b a le (fun le2 => fetchGo tr mr b (a + 1) le2 f) (classify (tr a))

/-- Model of `fetch_json(url)` from `pull_f1_ergast_legacy.py`, as a function of the
response trace, `MAX_RETRIES` and `BACKOFF_BASE_SECONDS`. -/
def fetch_json (tr : Nat → Attempt) (mr : Nat) (b : ℚ) : FetchResult :=
  fetchGo tr mr b 0 none (mr + 1)

/-!
## `pull_f1.py`: fetcher, error classifier, job runner, id extraction
-/

/-- Python `repr(v)`, as embedded in f-strings for container values. -/
def pyRepr : JVal → String
  | .null => "None"
  | .int n => toString n
  | .str s => "\x27" ++ s ++ "\x27"
  | .arr l => "[" ++ String.intercalate ", " (l.attach.map fun x => pyRepr x.1) ++ "]"
  | .obj kvs =>
    "\x7b" ++ String.intercalate ", "
      (kvs.attach.map fun x => "\x27" ++ x.1.1 ++ "\x27: " ++ pyRepr x.1.2) ++ "\x7d"
decreasing_by
  · have h := List.sizeOf_lt_of_mem x.2
    simp only [JVal.arr.sizeOf_spec]
    omega
  · have h := List.sizeOf_lt_of_mem x.2
    have h2 : sizeOf x.1.2 < sizeOf x.1 := by
      obtain ⟨⟨a, b⟩, hm⟩ := x
      simp only [Prod.mk.sizeOf_spec]
      omega
    simp only [JVal.obj.sizeOf_spec]
    omega

/-- Python `str(v)` as used by f-string interpolation. -/
def pyStrOf : JVal → String
  | .str s => s
  | v => pyRepr v

/-- Errors `fetch_json` of `pull_f1.py` can raise: the re-raised JSON
decode error, or `RuntimeError(f"HTTP {r.status_code}")`. -/
inductive ApiErr where
  | jsonParse
  | http (status : Nat)
deriving DecidableEq

namespace ApiSports

/-- Model of `fetch_json(get_name, params)` from `pull_f1.py`: parses the body first
(re-raising a decode failure), then raises on any status `>= 400`,
otherwise returns the payload.  No retry, no sleep: exactly one request
is issued per call. -/
def fetch_json (r : Resp) : Except ApiErr JVal :=
  match r.jsonBody with
  | none => .error .jsonParse
  | some payload => if 400 ≤ r.status then .error (.http r.status) else .ok payload

end ApiSports

/-- Model of `first_error(payload)`: a non-empty dict under `"errors"` yields
`f"{k}: {err.get(k)}"` for the first key `k`; anything else yields
`None`. -/
def first_error (payload : List (String × JVal)) : Option String :=
  match pyLookup "errors" payload with
  | some (.obj es) =>
    match es with
    | [] => none
    | (k, _) :: _ => some (k ++ ": " ++ pyStrOf ((pyLookup k es).getD .null))
  | _ => none

/-- What the main job loop leaves behind for one job: the output path,
the payload written (unchanged), and whether the `first_error` warning
fired. -/
structure JobOutcome where
  outPath : String
  written : List (String × JVal)
  warned : Bool

/-- The core-endpoint loop of `main()` (`for get_name, params, out_path
in jobs`): fetch, classify via `first_error` (warn only), write the
payload unchanged, continue.  A fetch exception aborts the rest of the
run but the outcomes already produced stand (their files are on disk).
`fetchF` maps the `get_name` of a job to the fetch outcome; a payload is a
dict as returned by the API. -/
def runJobs (fetchF : String → Except ApiErr (List (String × JVal))) :
    List (String × String) → List JobOutcome × Option ApiErr
  | [] => ([], none)
  | (getName, outPath) :: rest =>
    match fetchF getName with
    | .error e => ([], some e)
    | .ok payload =>
      let outc : JobOutcome := ⟨outPath, payload, (first_error payload).isSome⟩
      let r := runJobs fetchF rest
      (outc :: r.1, r.2)

/-- The id a row of the rankings payload contributes:
`row["driver"]["id"]` when the row is a dict whose `"driver"` is a dict
with a truthy `"id"`, nothing otherwise. -/
def goodId? (row : JVal) : Option JVal :=
  match row with
  | .obj kvs =>
    match pyLookup "driver" kvs with
    | some (.obj dkvs) =>
      match pyLookup "id" dkvs with
      | some v => if v.truthy then some v else none
      | _ => none
    | _ => none
  | _ => none

/-- Equality test backing the Python `set` of collected ids.  Collected
ids are hashable (`None`/`int`/`str`; lists and dicts are rejected
before deduplication), so a flat comparison suffices. -/
def idEq : JVal → JVal → Bool
  | .null, .null => true
  | .int a, .int b => a == b
  | .str a, .str b => a == b
  | _, _ => false

/-- Deduplication performed by the Python `set`: each value kept once. -/
def dedupIds : List JVal → List JVal
  | [] => []
  | v :: rest =>
    let d := dedupIds rest
    if d.any (idEq v) then d else v :: d

/-- Model of `ids = set(); ids.add(...)` over the rows: `none` models the
`TypeError` raised by `set.add` on an unhashable id. -/
def collectIds? (rows : List JVal) : Option (List JVal) :=
  let ids := rows.filterMap goodId?
  if ids.any JVal.unhashable then none else some (dedupIds ids)

/-- Python `sorted` over the collected id set: ints sort by value,
strings lexicographically; `sorted` raises `TypeError` on a mixed
int/str set (`none`). -/
def pySortVals? (l : List JVal) : Option (List JVal) :=
  if l.all JVal.isInt then
    some (((l.filterMap JVal.asInt?).insertionSort (· ≤ ·)).map JVal.int)
  else if l.all JVal.isStr then
    some (((l.filterMap JVal.asStr?).insertionSort (· ≤ ·)).map JVal.str)
  else none

/-- The loop body plus `return sorted(ids)` of
`fetch_driver_ids_from_rankings`, over the iterated rows. -/
def extract_ids_rows (rows : List JVal) : Option (List JVal) :=
  (collectIds? rows).bind pySortVals?

/-- Model of `rankings_payload.get("response") or []`, then iteration: a falsy or
missing `response` iterates nothing; iterating a non-iterable raises
(`none`). -/
def responseRows? (payload : List (String × JVal)) : Option (List JVal) :=
  match pyLookup "response" payload with
  | some v => if v.truthy then pyIter? v else some []
  | none => some []

/-- Model of `fetch_driver_ids_from_rankings(rankings_payload)` from `pull_f1.py`:
`some ids` is the returned list, `none` an escaped exception. -/
def fetch_driver_ids_from_rankings (payload : List (String × JVal)) : Option (List JVal) :=
  (responseRows? payload).bind extract_ids_rows

/-!
## `rounds_from_races_payload` (both legacy variants, identical bodies)
-/

/-- One loop iteration of `rounds_from_races_payload`: `r.get("round")`,
skip `None`, `int(rd)` with failures skipped by the inner handler. -/
def roundOf? (row : JVal) : Option Int :=
  match row with
  | .obj kvs => (pyLookup "round" kvs).bind pyInt?
  | _ => none

/-- The loop plus `return sorted(set(rounds))`, over the iterated rows.
A non-dict row makes `r.get` raise `AttributeError`, which the outer
handler turns into `[]`. -/
def roundsCore (rows : List JVal) : List Int :=
  if rows.any (fun r => !r.isObj) then []
  else ((rows.filterMap roundOf?).dedup).insertionSort (· ≤ ·)

/-- Model of `rounds_from_races_payload(races_payload)`: total — every exception
raised by the body is caught by its `except Exception: return []`. -/
def rounds_from_races_payload (p : JVal) : List Int :=
  match ((pyIndex p "MRData").bind fun v => pyIndex v "RaceTable").bind (fun v => pyIndex v "Races") with
  | none => []
  | some races =>
    match pyIter? races with
    | none => []
    | some rows => roundsCore rows

/-!
## Lemmas about the retry loop
-/

/-- The wait the loop computes before leaving attempt `i`: the parsed
`Retry-After` value for a 429 that has one, else `b * 2 ^ i`. -/
def expectedWait (tr : Nat → Attempt) (b : ℚ) (i : Nat) : ℚ :=
  match classify (tr i) with
  | .retryRA q => q.getD (b * 2 ^ i)
  | _ => b * 2 ^ i

/-- The loop issues at most one request per remaining iteration. -/
theorem fetchGo_requests_le (tr : Nat → Attempt) (mr : Nat) (b : ℚ) :
    ∀ (f a : Nat) (le : Option PyErr), (fetchGo tr mr b a le f).requests ≤ f := by
  intro f
  induction f with
  | zero => intro a le; simp [fetchGo]
  | succ n ih =>
    intro a le
    rw [fetchGo]
    cases h : classify (tr a) with
    | done v => simp [stepRun]
    | retryRA q => simpa [stepRun, addWait] using Nat.succ_le_succ (ih (a + 1) le)
    | retry5xx => simpa [stepRun, addWait] using Nat.succ_le_succ (ih (a + 1) le)
    | exc e =>
      by_cases hm : mr ≤ a
      · simp [stepRun, hm]
      · simpa [stepRun, hm, addWait] using Nat.succ_le_succ (ih (a + 1) (some e))

/-- Every recorded wait is the one the loop computes for its attempt:
position `j` of the wait list of a run starting at attempt `a`
corresponds to attempt `a + j`. -/
theorem fetchGo_waits_getElem? (tr : Nat → Attempt) (mr : Nat) (b : ℚ) :
    ∀ (f a : Nat) (le : Option PyErr) (j : Nat) (w : ℚ),
      (fetchGo tr mr b a le f).waits[j]? = some w → w = expectedWait tr b (a + j) := by
  intro f
  induction f with
  | zero => intro a le j w h; simp [fetchGo] at h
  | succ n ih =>
    intro a le j w h
    rw [fetchGo] at h
    cases hc : classify (tr a) with
    | done v => rw [hc] at h; simp [stepRun] at h
    | retryRA q =>
      rw [hc] at h
      simp only [stepRun, addWait] at h
      cases j with
      | zero =>
        simp only [List.getElem?_cons_zero, Option.some.injEq] at h
        simp [expectedWait, hc, ← h]
      | succ j2 =>
        simp only [List.getElem?_cons_succ] at h
        have := ih (a + 1) le j2 w h
        rwa [show a + 1 + j2 = a + (j2 + 1) by omega] at this
    | retry5xx =>
      rw [hc] at h
      simp only [stepRun, addWait] at h
      cases j with
      | zero =>
        simp only [List.getElem?_cons_zero, Option.some.injEq] at h
        simp [expectedWait, hc, ← h]
      | succ j2 =>
        simp only [List.getElem?_cons_succ] at h
        have := ih (a + 1) le j2 w h
        rwa [show a + 1 + j2 = a + (j2 + 1) by omega] at this
    | exc e =>
      rw [hc] at h
      by_cases hm : mr ≤ a
      · simp [stepRun, hm] at h
      · simp only [stepRun, if_neg hm, addWait] at h
        cases j with
        | zero =>
          simp only [List.getElem?_cons_zero, Option.some.injEq] at h
          simp [expectedWait, hc, ← h]
        | succ j2 =>
          simp only [List.getElem?_cons_succ] at h
          have := ih (a + 1) (some e) j2 w h
          rwa [show a + 1 + j2 = a + (j2 + 1) by omega] at this

/-- A step that sleeps and continues without touching `last_err`:
a 429 or a 5xx response. -/
def IsRetryStep : Step → Prop
  | .retryRA _ => True
  | .retry5xx => True
  | _ => False

/-- A run in which every response is a 429 or a 5xx walks through all
remaining iterations, sleeps the computed wait each time, and ends in
the final `raise` with `last_err` untouched. -/
theorem fetchGo_all_retry (tr : Nat → Attempt) (mr : Nat) (b : ℚ)
    (hall : ∀ i, IsRetryStep (classify (tr i))) :
    ∀ (f a : Nat) (le : Option PyErr),
      fetchGo tr mr b a le f =
        ⟨.error le, (List.range f).map (fun k => expectedWait tr b (a + k)), f⟩ := by
  intro f
  induction f with
  | zero => intro a le; simp [fetchGo]
  | succ n ih =>
    intro a le
    rw [fetchGo]
    have h := hall a
    cases hc : classify (tr a) with
    | done v => rw [hc] at h; simp [IsRetryStep] at h
    | exc e => rw [hc] at h; simp [IsRetryStep] at h
    | retryRA q =>
      have hw : q.getD (b * 2 ^ a) = expectedWait tr b a := by simp [expectedWait, hc]
      simp only [stepRun, addWait]
      rw [ih (a + 1) le]
      simp only [FetchResult.mk.injEq]
      refine ⟨trivial, ?_, trivial⟩
      rw [List.range_succ_eq_map]
      simp only [List.map_cons, List.map_map, Nat.add_zero]
      rw [hw]
      refine congrArg (List.cons _) ?_
      apply List.map_congr_left
      intro k _
      simp only [Function.comp_apply]
      congr 1
      omega
    | retry5xx =>
      have hw : b * 2 ^ a = expectedWait tr b a := by simp [expectedWait, hc]
      simp only [stepRun, addWait]
      rw [ih (a + 1) le]
      simp only [FetchResult.mk.injEq]
      refine ⟨trivial, ?_, trivial⟩
      rw [List.range_succ_eq_map]
      simp only [List.map_cons, List.map_map, Nat.add_zero]
      rw [hw]
      refine congrArg (List.cons _) ?_
      apply List.map_congr_left
      intro k _
      simp only [Function.comp_apply]
      congr 1
      omega

/-- A run in which every attempt takes the exception path (non-retryable
status, network error, or JSON parse failure) sleeps `b * 2 ^ attempt`
after each attempt but the last, breaks at attempt `MAX_RETRIES` without
sleeping, and raises with `last_err` set to the exception of the final
attempt. -/
theorem fetchGo_all_exc (tr : Nat → Attempt) (mr : Nat) (b : ℚ) (e : Nat → PyErr)
    (hall : ∀ i, classify (tr i) = .exc (e i)) :
    ∀ (f a : Nat) (le : Option PyErr), a + f = mr + 1 → 1 ≤ f →
      fetchGo tr mr b a le f =
        ⟨.error (some (e mr)), (List.range (f - 1)).map (fun k => b * 2 ^ (a + k)), f⟩ := by
  intro f
  induction f with
  | zero => intro a le hsum h1; exact absurd h1 (by omega)
  | succ n ih =>
    intro a le hsum _
    rw [fetchGo, hall a]
    cases n with
    | zero =>
      have ha : a = mr := by omega
      subst ha
      simp [stepRun]
    | succ m =>
      have hlt : ¬ mr ≤ a := by omega
      simp only [stepRun, if_neg hlt, addWait]
      rw [ih (a + 1) (some (e a)) (by omega) (by omega)]
      simp only [FetchResult.mk.injEq, Nat.add_sub_cancel, Nat.succ_sub_one]
      refine ⟨trivial, ?_, trivial⟩
      rw [List.range_succ_eq_map]
      simp only [List.map_cons, List.map_map, Nat.add_zero]
      refine congrArg (List.cons _) ?_
      apply List.map_congr_left
      intro k _
      simp only [Function.comp_apply]
      have hk : a + 1 + k = a + (k + 1) := by omega
      rw [hk]

/-- A 429 response always takes the rate-limit branch, whatever its
body, with the parsed `Retry-After` header as candidate wait. -/
theorem classify_429 (r : Resp) (h : r.status = 429) :
    classify (.ok r) = .retryRA (retry_after_seconds r.retryAfter) := by
  have h1 : ¬ (200 ≤ r.status ∧ r.status < 300) := by omega
  simp [classify, h1, h]

/-- A 5xx response always takes the transient-server-error branch. -/
theorem classify_5xx (r : Resp) (h5 : 500 ≤ r.status) (h6 : r.status < 600) :
    classify (.ok r) = .retry5xx := by
  have h1 : ¬ (200 ≤ r.status ∧ r.status < 300) := by omega
  have h2 : r.status ≠ 429 := by omega
  simp [classify, h1, h2, h5, h6]

/-- A 2xx response whose body fails to parse raises the decode error
into the generic exception handler of the loop. -/
theorem classify_2xx_badjson (r : Resp) (h2 : 200 ≤ r.status) (h3 : r.status < 300)
    (hb : r.jsonBody = none) : classify (.ok r) = .exc .jsonParse := by
  simp [classify, h2, h3, hb]

/-- C1: on every HTTP 429 response, `fetch_json` of
`pull_f1_ergast_legacy.py` waits the parsed `Retry-After` duration when
the header is present and parses, and `base_backoff_seconds * 2 ^
attempt` otherwise; an all-429 run issues the initial request plus
`max_retries` retries and then fails permanently by raising, with no
stored error. -/
theorem claim_C1_http429_wait_and_retry_budget :
    (∀ (tr : Nat → Attempt) (mr : Nat) (b : ℚ) (r : Resp) (i : Nat) (w : ℚ),
        tr i = .ok r → r.status = 429 →
        (fetch_json tr mr b).waits[i]? = some w →
        w = (retry_after_seconds r.retryAfter).getD (b * 2 ^ i)) ∧
    (∀ (tr : Nat → Attempt) (mr : Nat) (b : ℚ),
        (∀ i, ∃ r, tr i = .ok r ∧ r.status = 429) →
        (fetch_json tr mr b).result = .error none ∧
        (fetch_json tr mr b).requests = mr + 1 ∧
        (fetch_json tr mr b).waits.length = mr + 1) := by
  constructor
  · intro tr mr b r i w htr h429 hw
    have := fetchGo_waits_getElem? tr mr b (mr + 1) 0 none i w hw
    rw [this, Nat.zero_add, expectedWait, htr, classify_429 r h429]
  · intro tr mr b hall
    have hret : ∀ i, IsRetryStep (classify (tr i)) := by
      intro i
      obtain ⟨r, htr, h429⟩ := hall i
      rw [htr, classify_429 r h429]
      exact trivial
    rw [fetch_json, fetchGo_all_retry tr mr b hret (mr + 1) 0 none]
    simp

/-- Witness for C1: a constant 429 trace with `Retry-After: 7`,
`max_retries = 2`, base 1. -/
def tr429w : Nat → Attempt := fun _ => .ok ⟨429, some "7", none, ""⟩

/-- C1 witness: concrete instantiation, hypotheses discharged by
evaluation. -/
theorem claim_C1_witness :
    tr429w 0 = .ok ⟨429, some "7", none, ""⟩ ∧
    (fetch_json tr429w 2 1).waits[0]? = some 7 ∧
    ((7 : ℚ) = (retry_after_seconds (some "7")).getD (1 * 2 ^ 0) ∧
      (fetch_json tr429w 2 1).result = .error none ∧
      (fetch_json tr429w 2 1).requests = 3 ∧
      (fetch_json tr429w 2 1).waits.length = 3) :=
  ⟨rfl, rfl,
    claim_C1_http429_wait_and_retry_budget.1 tr429w 2 1 ⟨429, some "7", none, ""⟩ 0 7 rfl rfl rfl,
    (claim_C1_http429_wait_and_retry_budget.2 tr429w 2 1
      (fun _ => ⟨⟨429, some "7", none, ""⟩, rfl, rfl⟩)).1,
    (claim_C1_http429_wait_and_retry_budget.2 tr429w 2 1
      (fun _ => ⟨⟨429, some "7", none, ""⟩, rfl, rfl⟩)).2.1,
    (claim_C1_http429_wait_and_retry_budget.2 tr429w 2 1
      (fun _ => ⟨⟨429, some "7", none, ""⟩, rfl, rfl⟩)).2.2⟩

/-- Constant trace of HTTP 404 responses with body text `"body"`. -/
def tr404c : Nat → Attempt := fun _ => .ok ⟨404, none, none, "body"⟩

/-- C2: divergence exhibit.  `fetch_json` of `pull_f1.py` does fail fast
on a 404 (first conjunct), but `fetch_json` of
`pull_f1_ergast_legacy.py` does not: its `raise RuntimeError(f"HTTP
{status}...")` for non-retryable client errors is caught by the generic
`except Exception` clause of the same loop, so with `max_retries = 2` a
constant-404 trace draws 3 requests and 2 backoff sleeps before the
final raise — contradicting the fail-fast contract and the comment
`fail fast with details` in the code itself. -/
theorem claim_C2_http404_legacy_retries_apisports_failfast :
    ApiSports.fetch_json ⟨404, none, some (.obj []), "body"⟩ = .error (.http 404) ∧
    (fetch_json tr404c 2 1).requests = 3 ∧
    (fetch_json tr404c 2 1).waits.length = 2 ∧
    (fetch_json tr404c 2 1).result = .error (some (.runtimeHttp 404 "body")) :=
  ⟨rfl, rfl, rfl, rfl⟩

/-- Constant trace of HTTP 500 responses without `Retry-After`. -/
def tr500c : Nat → Attempt := fun _ => .ok ⟨500, none, none, ""⟩

/-- C3 counterexample: with the default `MAX_RETRIES = 8` and a trace of
5xx responses without `Retry-After` (so the premise of the claim holds), the
loop `for attempt in range(0, MAX_RETRIES + 1)` issues 9 requests —
exceeding the configured maximum number of retries, contrary to the
attempt-count bound of the claim. -/
theorem claim_C3_counterexample :
    (∀ i, ∃ r, tr500c i = .ok r ∧ 500 ≤ r.status ∧ r.status < 600 ∧ r.retryAfter = none) ∧
    (fetch_json tr500c 8 1).requests = 9 ∧
    ¬ ((fetch_json tr500c 8 1).requests ≤ 8) :=
  ⟨fun _ => ⟨⟨500, none, none, ""⟩, rfl, by decide, by decide, rfl⟩, rfl, by decide⟩

/-- C3 (amended): for every trace the fetcher issues at most
`max_retries + 1` requests; and on every run whose responses are all
429-without-`Retry-After` or 5xx, with a positive base backoff, the wait
durations strictly increase across successive attempts and exactly
`max_retries + 1` requests are issued. -/
theorem claim_C3_backoff_growth_and_attempt_bound :
    (∀ (tr : Nat → Attempt) (mr : Nat) (b : ℚ),
        (fetch_json tr mr b).requests ≤ mr + 1) ∧
    (∀ (tr : Nat → Attempt) (mr : Nat) (b : ℚ), 0 < b →
        (∀ i, ∃ r, tr i = .ok r ∧
          ((r.status = 429 ∧ r.retryAfter = none) ∨ (500 ≤ r.status ∧ r.status < 600))) →
        List.Sorted (· < ·) (fetch_json tr mr b).waits ∧
        (fetch_json tr mr b).requests = mr + 1) := by
  constructor
  · intro tr mr b
    exact fetchGo_requests_le tr mr b (mr + 1) 0 none
  · intro tr mr b hb hall
    have hret : ∀ i, IsRetryStep (classify (tr i)) := by
      intro i
      obtain ⟨r, htr, hcase⟩ := hall i
      rw [htr]
      rcases hcase with ⟨h429, _⟩ | ⟨h5, h6⟩
      · rw [classify_429 r h429]; exact trivial
      · rw [classify_5xx r h5 h6]; exact trivial
    have hwf : ∀ i, expectedWait tr b i = b * 2 ^ i := by
      intro i
      obtain ⟨r, htr, hcase⟩ := hall i
      rcases hcase with ⟨h429, hra⟩ | ⟨h5, h6⟩
      · rw [expectedWait, htr, classify_429 r h429, hra]
        rfl
      · rw [expectedWait, htr, classify_5xx r h5 h6]
    rw [fetch_json, fetchGo_all_retry tr mr b hret (mr + 1) 0 none]
    refine ⟨?_, rfl⟩
    have hmap : (List.range (mr + 1)).map (fun k => expectedWait tr b (0 + k)) =
        (List.range (mr + 1)).map (fun k => b * 2 ^ k) := by
      apply List.map_congr_left
      intro k _
      rw [Nat.zero_add, hwf k]
    rw [hmap]
    exact (List.sorted_lt_range (mr + 1)).map _
      (fun i j hij => mul_lt_mul_of_pos_left (pow_lt_pow_right₀ one_lt_two hij) hb)

/-- C3 witness: concrete instantiation of the amended claim on a
constant 500 trace with `max_retries = 1` and base 1. -/
theorem claim_C3_witness :
    (0 : ℚ) < 1 ∧
    List.Sorted (· < ·) (fetch_json tr500c 1 1).waits ∧
    (fetch_json tr500c 1 1).requests = 2 ∧
    (fetch_json tr500c 1 1).requests ≤ 2 :=
  ⟨by norm_num,
    (claim_C3_backoff_growth_and_attempt_bound.2 tr500c 1 1 (by norm_num)
      (fun _ => ⟨⟨500, none, none, ""⟩, rfl, Or.inr (by decide)⟩)).1,
    (claim_C3_backoff_growth_and_attempt_bound.2 tr500c 1 1 (by norm_num)
      (fun _ => ⟨⟨500, none, none, ""⟩, rfl, Or.inr (by decide)⟩)).2,
    claim_C3_backoff_growth_and_attempt_bound.1 tr500c 1 1⟩

/-- Constant trace of 2xx responses whose bodies are not valid JSON. -/
def tr200badc : Nat → Attempt := fun _ => .ok ⟨200, none, none, "not json"⟩

/-- C4 counterexample: in `pull_f1_ergast_legacy.py` a 2xx response with
an unparsable body is retried, not raised permanently: with
`max_retries = 1` the run issues 2 requests and sleeps once before
failing, contradicting `raises without retrying the request`. -/
theorem claim_C4_counterexample :
    (fetch_json tr200badc 1 1).requests = 2 ∧
    (fetch_json tr200badc 1 1).waits.length = 1 ∧
    (fetch_json tr200badc 1 1).result = .error (some .jsonParse) :=
  ⟨rfl, rfl, rfl⟩

/-- C4 (amended): `fetch_json` of `pull_f1.py` treats a JSON parse
failure as permanent (re-raises, one request, no retry); `fetch_json` of
`pull_f1_ergast_legacy.py` catches the decode error in its generic
handler and retries, issuing `max_retries + 1` requests before failing
permanently with the parse error as `last_err`. -/
theorem claim_C4_parse_failure_policy :
    (∀ r : Resp, r.jsonBody = none → ApiSports.fetch_json r = .error .jsonParse) ∧
    (∀ (tr : Nat → Attempt) (mr : Nat) (b : ℚ),
        (∀ i, ∃ r, tr i = .ok r ∧ 200 ≤ r.status ∧ r.status < 300 ∧ r.jsonBody = none) →
        (fetch_json tr mr b).result = .error (some .jsonParse) ∧
        (fetch_json tr mr b).requests = mr + 1) := by
  constructor
  · intro r hb
    rw [ApiSports.fetch_json, hb]
  · intro tr mr b hall
    have hexc : ∀ i, classify (tr i) = .exc ((fun _ => PyErr.jsonParse) i) := by
      intro i
      obtain ⟨r, htr, h2, h3, hb⟩ := hall i
      rw [htr, classify_2xx_badjson r h2 h3 hb]
    rw [fetch_json,
      fetchGo_all_exc tr mr b (fun _ => PyErr.jsonParse) hexc (mr + 1) 0 none (by omega) (by omega)]
    exact ⟨rfl, rfl⟩

/-- C4 witness: concrete instantiation on a constant 2xx-bad-body trace
with `max_retries = 1`. -/
theorem claim_C4_witness :
    (⟨200, none, none, "x"⟩ : Resp).jsonBody = none ∧
    ApiSports.fetch_json ⟨200, none, none, "x"⟩ = .error .jsonParse ∧
    (fetch_json tr200badc 1 1).result = .error (some .jsonParse) ∧
    (fetch_json tr200badc 1 1).requests = 2 :=
  ⟨rfl,
    claim_C4_parse_failure_policy.1 ⟨200, none, none, "x"⟩ rfl,
    (claim_C4_parse_failure_policy.2 tr200badc 1 1
      (fun _ => ⟨⟨200, none, none, "not json"⟩, rfl, by decide, by decide, rfl⟩)).1,
    (claim_C4_parse_failure_policy.2 tr200badc 1 1
      (fun _ => ⟨⟨200, none, none, "not json"⟩, rfl, by decide, by decide, rfl⟩)).2⟩

/-- C8: for every dict payload, `first_error` returns a message exactly
when the value under `"errors"` is a non-empty dict, and `None` in every
other case (key absent, empty dict, or a non-dict value); the function
is total, so it never raises. -/
theorem claim_C8_first_error_iff :
    ∀ payload : List (String × JVal),
      (first_error payload).isSome = true ↔
        ∃ es, pyLookup "errors" payload = some (.obj es) ∧ es ≠ [] := by
  intro payload
  rw [first_error]
  rcases h : pyLookup "errors" payload with _ | v
  · simp
  · cases v with
    | obj es =>
      cases es with
      | nil => simp
      | cons kv rest => simp
    | null => simp
    | int n => simp
    | str s => simp
    | arr l => simp

/-- C7: in the core-endpoint loop of `main()` (`pull_f1.py`), a job
whose fetch succeeds with a payload carrying a populated `errors`
mapping is logged as a warning (`warned = true`), its payload is still
written to disk unchanged, and the loop continues: the remaining jobs
run exactly as they otherwise would. -/
theorem claim_C7_api_error_warn_write_continue :
    ∀ (fetchF : String → Except ApiErr (List (String × JVal)))
      (g path : String) (rest : List (String × String)) (payload : List (String × JVal)),
      fetchF g = .ok payload → first_error payload ≠ none →
      runJobs fetchF ((g, path) :: rest) =
        (⟨path, payload, true⟩ :: (runJobs fetchF rest).1, (runJobs fetchF rest).2) := by
  intro fetchF g path rest payload hfetch herr
  rw [runJobs, hfetch]
  simp only [Option.isSome_iff_ne_none.mpr herr]

/-- Fetch stub for the C7 witness: every job returns a 2xx payload whose
`errors` field is the non-empty mapping `{"season": "missing"}`. -/
def fetchW : String → Except ApiErr (List (String × JVal)) :=
  fun _ => .ok [("errors", .obj [("season", .str "missing")]), ("response", .arr [])]

/-- C7 witness: concrete instantiation, hypotheses discharged by
evaluation. -/
theorem claim_C7_witness :
    fetchW "races" = .ok [("errors", .obj [("season", .str "missing")]), ("response", .arr [])] ∧
    first_error [("errors", .obj [("season", .str "missing")]), ("response", .arr [])] ≠ none ∧
    runJobs fetchW [("races", "races.json"), ("teams", "teams.json")] =
      (⟨"races.json", [("errors", .obj [("season", .str "missing")]), ("response", .arr [])], true⟩
          :: (runJobs fetchW [("teams", "teams.json")]).1,
        (runJobs fetchW [("teams", "teams.json")]).2) :=
  ⟨rfl, by simp [first_error, pyLookup],
    claim_C7_api_error_warn_write_continue fetchW "races" "races.json" [("teams", "teams.json")]
      [("errors", .obj [("season", .str "missing")]), ("response", .arr [])] rfl
      (by simp [first_error, pyLookup])⟩

/-- The mock rows of the spec, `[{"id":5},{"id":3},{"id":5}]`, verbatim. -/
def mockIdRows : JVal :=
  .arr [.obj [("id", .int 5)], .obj [("id", .int 3)], .obj [("id", .int 5)]]

/-- Rows of the shape `fetch_driver_ids_from_rankings` actually reads:
`{"driver": {"id": n}}`. -/
def driverRows : JVal :=
  .arr [.obj [("driver", .obj [("id", .int 5)])],
        .obj [("driver", .obj [("id", .int 3)])],
        .obj [("driver", .obj [("id", .int 5)])]]

/-- A races payload whose rows carry rounds 5, 3, 5, in the
`MRData -> RaceTable -> Races` shape `rounds_from_races_payload`
reads. -/
def racesPayload : JVal :=
  .obj [("MRData", .obj [("RaceTable", .obj [("Races",
    .arr [.obj [("round", .str "5")], .obj [("round", .str "3")], .obj [("round", .str "5")]])])])]

/-- C5 counterexample: on the literal mock rows of the spec,
`[{"id":5},{"id":3},{"id":5}]` neither extractor returns `[3, 5]`:
`fetch_driver_ids_from_rankings` looks for `row["driver"]["id"]`, finds
no `driver` key and returns `[]`; `rounds_from_races_payload` finds no
`MRData` and returns `[]`. -/
theorem claim_C5_counterexample :
    fetch_driver_ids_from_rankings [("response", mockIdRows)] = some [] ∧
    rounds_from_races_payload (.obj [("response", mockIdRows)]) = [] ∧
    some ([] : List JVal) ≠ some [JVal.int 3, JVal.int 5] ∧
    ([] : List Int) ≠ [3, 5] :=
  ⟨rfl, rfl, by simp, by simp⟩

/-- C5 (amended): with rows of the shape each extractor actually reads —
`{"driver":{"id":5}}, {"driver":{"id":3}}, {"driver":{"id":5}}` for
`fetch_driver_ids_from_rankings` and rounds `"5","3","5"` under
`MRData -> RaceTable -> Races` for `rounds_from_races_payload` — the
result is `[3, 5]`; on the literal mock rows
`[{"id":5},{"id":3},{"id":5}]` both extractors return `[]`. -/
theorem claim_C5_extract_ids_mock :
    fetch_driver_ids_from_rankings [("response", driverRows)] = some [.int 3, .int 5] ∧
    rounds_from_races_payload racesPayload = [3, 5] ∧
    fetch_driver_ids_from_rankings [("response", mockIdRows)] = some [] ∧
    rounds_from_races_payload (.obj [("response", mockIdRows)]) = [] :=
  ⟨rfl, rfl, rfl, rfl⟩

/-- C10: `rounds_from_races_payload` is total — the outer
`except Exception: return []` catches everything, so every payload maps
to a list.  Missing `MRData`/`RaceTable`/`Races` keys, indexing through
a non-dict, and a non-iterable `Races` value all yield `[]`; a row
without a `round` key or with a non-convertible round is skipped. -/
theorem claim_C10_rounds_total :
    (∀ p : JVal, ∃ l : List Int, rounds_from_races_payload p = l) ∧
    rounds_from_races_payload (.obj []) = [] ∧
    rounds_from_races_payload (.obj [("MRData", .int 3)]) = [] ∧
    rounds_from_races_payload (.obj [("MRData", .obj [("RaceTable", .obj [])])]) = [] ∧
    rounds_from_races_payload
      (.obj [("MRData", .obj [("RaceTable", .obj [("Races", .int 5)])])]) = [] ∧
    rounds_from_races_payload
      (.obj [("MRData", .obj [("RaceTable", .obj [("Races",
        .arr [.obj [("round", .str "x")], .obj [], .obj [("round", .null)],
              .obj [("round", .arr [.int 1])], .obj [("round", .str "7")]])])])]) = [7] ∧
    rounds_from_races_payload
      (.obj [("MRData", .obj [("RaceTable", .obj [("Races",
        .arr [.obj [("round", .str "2")], .int 9])])])]) = [] :=
  ⟨fun p => ⟨rounds_from_races_payload p, rfl⟩, rfl, rfl, rfl, rfl, rfl, rfl⟩

/-- Strict ascending order on the homogeneous id lists `sorted`
produces: int before int by value, str before str lexicographically. -/
def jlt : JVal → JVal → Prop
  | .int a, .int b => a < b
  | .str a, .str b => a < b
  | _, _ => False

/-- A contributed id is truthy: `goodId?` only passes values that
survive the `d.get("id")` truthiness test. -/
theorem goodId?_truthy : ∀ (row v : JVal), goodId? row = some v → v.truthy = true := by
  intro row v h
  unfold goodId? at h
  split at h
  · split at h
    · split at h
      · split at h
        · cases h
          assumption
        · cases h
      · cases h
    · cases h
  · cases h

/-- Reflexivity of `idEq` on hashable values. -/
theorem idEq_self : ∀ v : JVal, v.unhashable = false → idEq v v = true := by
  intro v hv
  cases v <;> simp_all [idEq, JVal.unhashable]

/-- On hashable values, `idEq` agrees with equality. -/
theorem idEq_eq : ∀ v w : JVal, v.unhashable = false → (idEq v w = true ↔ v = w) := by
  intro v w hv
  cases v <;> cases w <;> simp_all [idEq, JVal.unhashable]

/-- Deduplication keeps exactly the members of the input (when every
element is hashable, as guaranteed before the Python `set` is built). -/
theorem mem_dedupIds : ∀ (l : List JVal), (∀ v ∈ l, v.unhashable = false) →
    ∀ x, (x ∈ dedupIds l ↔ x ∈ l) := by
  intro l
  induction l with
  | nil => intro _ x; simp [dedupIds]
  | cons v rest ih =>
    intro hfl x
    have hv : v.unhashable = false := hfl v (by simp)
    have hr : ∀ w ∈ rest, w.unhashable = false := fun w hw => hfl w (by simp [hw])
    rw [dedupIds]
    by_cases hany : (dedupIds rest).any (idEq v) = true
    · obtain ⟨w, hwmem, hwid⟩ := List.any_eq_true.mp hany
      have hveq : v = w := (idEq_eq v w hv).mp hwid
      have hvin : v ∈ rest := hveq ▸ (ih hr w).mp hwmem
      rw [if_pos hany, ih hr x, List.mem_cons]
      constructor
      · exact Or.inr
      · rintro (rfl | hx)
        · exact hvin
        · exact hx
    · rw [if_neg hany, List.mem_cons, List.mem_cons, ih hr x]

/-- The deduplicated id list has no duplicates. -/
theorem nodup_dedupIds : ∀ (l : List JVal), (∀ v ∈ l, v.unhashable = false) →
    (dedupIds l).Nodup := by
  intro l
  induction l with
  | nil => intro _; simp [dedupIds]
  | cons v rest ih =>
    intro hfl
    have hv : v.unhashable = false := hfl v (by simp)
    have hr : ∀ w ∈ rest, w.unhashable = false := fun w hw => hfl w (by simp [hw])
    rw [dedupIds]
    by_cases hany : (dedupIds rest).any (idEq v) = true
    · rw [if_pos hany]
      exact ih hr
    · rw [if_neg hany]
      refine List.Nodup.cons ?_ (ih hr)
      intro hvin
      exact hany (List.any_eq_true.mpr ⟨v, hvin, idEq_self v hv⟩)

/-- Inversion for `asInt?`. -/
theorem asInt?_eq_some : ∀ (v : JVal) (n : Int), v.asInt? = some n → v = .int n := by
  intro v n h
  cases v <;> simp_all [JVal.asInt?]

/-- Inversion for `asStr?`. -/
theorem asStr?_eq_some : ∀ (v : JVal) (s : String), v.asStr? = some s → v = .str s := by
  intro v s h
  cases v <;> simp_all [JVal.asStr?]

/-- Sorting is a function of the underlying multiset: permuted inputs
sort to the same list. -/
theorem insertionSort_eq_of_perm {α : Type} [LinearOrder α] {l₁ l₂ : List α}
    (hp : List.Perm l₁ l₂) :
    l₁.insertionSort (· ≤ ·) = l₂.insertionSort (· ≤ ·) :=
  List.eq_of_perm_of_sorted
    ((List.perm_insertionSort _ l₁).trans (hp.trans (List.perm_insertionSort _ l₂).symm))
    (List.sorted_insertionSort _ l₁) (List.sorted_insertionSort _ l₂)

/-- Every element of a sorted id list comes from the input set. -/
theorem pySortVals?_mem : ∀ (l s : List JVal), pySortVals? l = some s → ∀ x ∈ s, x ∈ l := by
  intro l s h x hx
  rw [pySortVals?] at h
  by_cases hint : l.all JVal.isInt = true
  · rw [if_pos hint] at h
    cases h
    obtain ⟨n, hn, rfl⟩ := List.mem_map.mp hx
    rw [List.mem_insertionSort] at hn
    obtain ⟨v, hv, hvn⟩ := List.mem_filterMap.mp hn
    rwa [← asInt?_eq_some v n hvn]
  · rw [if_neg hint] at h
    by_cases hstr : l.all JVal.isStr = true
    · rw [if_pos hstr] at h
      cases h
      obtain ⟨t, ht, rfl⟩ := List.mem_map.mp hx
      rw [List.mem_insertionSort] at ht
      obtain ⟨v, hv, hvt⟩ := List.mem_filterMap.mp ht
      rwa [← asStr?_eq_some v t hvt]
    · rw [if_neg hstr] at h
      cases h

/-- The sorted id list is strictly ascending and duplicate-free when the
input set is duplicate-free. -/
theorem pySortVals?_sorted : ∀ (l s : List JVal), l.Nodup → pySortVals? l = some s →
    List.Sorted jlt s ∧ s.Nodup := by
  intro l s hnd h
  rw [pySortVals?] at h
  by_cases hint : l.all JVal.isInt = true
  · rw [if_pos hint] at h
    cases h
    have hndi : (l.filterMap JVal.asInt?).Nodup := by
      refine hnd.filterMap ?_
      intro a a2 b hb hb2
      rw [Option.mem_def] at hb hb2
      rw [asInt?_eq_some a b hb, asInt?_eq_some a2 b hb2]
    have hnds : ((l.filterMap JVal.asInt?).insertionSort (· ≤ ·)).Nodup :=
      (List.perm_insertionSort _ _).nodup_iff.mpr hndi
    have hlt : List.Sorted (· < ·) ((l.filterMap JVal.asInt?).insertionSort (· ≤ ·)) :=
      (List.sorted_insertionSort _ _).lt_of_le hnds
    constructor
    · exact hlt.map JVal.int (fun a b hab => hab)
    · exact hnds.map (fun a b hab => by injection hab)
  · rw [if_neg hint] at h
    by_cases hstr : l.all JVal.isStr = true
    · rw [if_pos hstr] at h
      cases h
      have hndi : (l.filterMap JVal.asStr?).Nodup := by
        refine hnd.filterMap ?_
        intro a a2 b hb hb2
        rw [Option.mem_def] at hb hb2
        rw [asStr?_eq_some a b hb, asStr?_eq_some a2 b hb2]
      have hnds : ((l.filterMap JVal.asStr?).insertionSort (· ≤ ·)).Nodup :=
        (List.perm_insertionSort _ _).nodup_iff.mpr hndi
      have hlt : List.Sorted (· < ·) ((l.filterMap JVal.asStr?).insertionSort (· ≤ ·)) :=
        (List.sorted_insertionSort _ _).lt_of_le hnds
      constructor
      · exact hlt.map JVal.str (fun a b hab => hab)
      · exact hnds.map (fun a b hab => by injection hab)
    · rw [if_neg hstr] at h
      cases h

/-- Sorting the id set is invariant under permutation of the enumeration
of the set. -/
theorem pySortVals?_perm_eq : ∀ l1 l2 : List JVal, List.Perm l1 l2 →
    pySortVals? l1 = pySortVals? l2 := by
  intro l1 l2 hp
  have hint : (l1.all JVal.isInt) = (l2.all JVal.isInt) := by
    rw [Bool.eq_iff_iff, List.all_eq_true, List.all_eq_true]
    exact ⟨fun h x hx => h x (hp.mem_iff.mpr hx), fun h x hx => h x (hp.mem_iff.mp hx)⟩
  have hstr : (l1.all JVal.isStr) = (l2.all JVal.isStr) := by
    rw [Bool.eq_iff_iff, List.all_eq_true, List.all_eq_true]
    exact ⟨fun h x hx => h x (hp.mem_iff.mpr hx), fun h x hx => h x (hp.mem_iff.mp hx)⟩
  rw [pySortVals?, pySortVals?, hint, hstr,
    insertionSort_eq_of_perm (hp.filterMap JVal.asInt?),
    insertionSort_eq_of_perm (hp.filterMap JVal.asStr?)]

/-- When `set.add` never raises, every collected id is hashable. -/
theorem flat_of_any_unhashable_false : ∀ (l : List JVal), l.any JVal.unhashable = false →
    ∀ v ∈ l, v.unhashable = false := by
  intro l hany v hv
  by_contra hc
  simp only [Bool.not_eq_false] at hc
  rw [List.any_eq_true.mpr ⟨v, hv, hc⟩] at hany
  cases hany

/-- A returned id list is strictly ascending and duplicate-free. -/
theorem extract_ids_rows_sorted : ∀ (rows l : List JVal), extract_ids_rows rows = some l →
    List.Sorted jlt l ∧ l.Nodup := by
  intro rows l h
  simp only [extract_ids_rows, collectIds?] at h
  by_cases hany : (rows.filterMap goodId?).any JVal.unhashable = true
  · rw [if_pos hany] at h
    cases h
  · rw [if_neg hany] at h
    simp only [Option.some_bind] at h
    have hfl := flat_of_any_unhashable_false _ (Bool.not_eq_true _ ▸ hany)
    exact pySortVals?_sorted _ l (nodup_dedupIds _ hfl) h

/-- Every returned id was contributed by some input row. -/
theorem extract_ids_rows_mem : ∀ (rows l : List JVal), extract_ids_rows rows = some l →
    ∀ x ∈ l, ∃ row ∈ rows, goodId? row = some x := by
  intro rows l h x hx
  simp only [extract_ids_rows, collectIds?] at h
  by_cases hany : (rows.filterMap goodId?).any JVal.unhashable = true
  · rw [if_pos hany] at h
    cases h
  · rw [if_neg hany] at h
    simp only [Option.some_bind] at h
    have hfl := flat_of_any_unhashable_false _ (Bool.not_eq_true _ ▸ hany)
    have hxm : x ∈ dedupIds (rows.filterMap goodId?) := pySortVals?_mem _ l h x hx
    have hxi : x ∈ rows.filterMap goodId? := (mem_dedupIds _ hfl x).mp hxm
    exact List.mem_filterMap.mp hxi

/-- The extraction depends on the rows only through their multiset:
permuting the input rows leaves the result unchanged. -/
theorem extract_ids_rows_perm : ∀ rows1 rows2 : List JVal, List.Perm rows1 rows2 →
    extract_ids_rows rows1 = extract_ids_rows rows2 := by
  intro rows1 rows2 hp
  have hpids := hp.filterMap goodId?
  simp only [extract_ids_rows, collectIds?]
  have hany : (rows1.filterMap goodId?).any JVal.unhashable
      = (rows2.filterMap goodId?).any JVal.unhashable := by
    rw [Bool.eq_iff_iff, List.any_eq_true, List.any_eq_true]
    constructor
    · rintro ⟨x, hx, hux⟩
      exact ⟨x, hpids.mem_iff.mp hx, hux⟩
    · rintro ⟨x, hx, hux⟩
      exact ⟨x, hpids.mem_iff.mpr hx, hux⟩
  by_cases h1 : (rows1.filterMap goodId?).any JVal.unhashable = true
  · rw [if_pos h1, if_pos (hany ▸ h1)]
  · rw [if_neg h1, if_neg (hany ▸ h1)]
    simp only [Option.some_bind]
    have hfl1 := flat_of_any_unhashable_false _ (Bool.not_eq_true _ ▸ h1)
    have hfl2 := flat_of_any_unhashable_false _
      (Bool.not_eq_true _ ▸ (hany ▸ h1 : ¬(rows2.filterMap goodId?).any JVal.unhashable = true))
    apply pySortVals?_perm_eq
    refine (List.perm_ext_iff_of_nodup (nodup_dedupIds _ hfl1) (nodup_dedupIds _ hfl2)).mpr ?_
    intro a
    rw [mem_dedupIds _ hfl1 a, mem_dedupIds _ hfl2 a]
    exact hpids.mem_iff

/-- The round list is strictly ascending and duplicate-free whatever the
rows. -/
theorem roundsCore_sorted_nodup : ∀ rows : List JVal,
    List.Sorted (· < ·) (roundsCore rows) ∧ (roundsCore rows).Nodup := by
  intro rows
  rw [roundsCore]
  by_cases h : rows.any (fun r => !r.isObj) = true
  · rw [if_pos h]
    simp
  · rw [if_neg h]
    have hnds : (((rows.filterMap roundOf?).dedup).insertionSort (· ≤ ·)).Nodup :=
      (List.perm_insertionSort _ _).nodup_iff.mpr (List.nodup_dedup _)
    exact ⟨(List.sorted_insertionSort _ _).lt_of_le hnds, hnds⟩

/-- The function `roundsCore` depends on the rows only through their multiset. -/
theorem roundsCore_perm : ∀ rows1 rows2 : List JVal, List.Perm rows1 rows2 →
    roundsCore rows1 = roundsCore rows2 := by
  intro rows1 rows2 hp
  rw [roundsCore, roundsCore]
  have hany : rows1.any (fun r => !r.isObj) = rows2.any (fun r => !r.isObj) := by
    rw [Bool.eq_iff_iff, List.any_eq_true, List.any_eq_true]
    constructor
    · rintro ⟨x, hx, hux⟩
      exact ⟨x, hp.mem_iff.mp hx, hux⟩
    · rintro ⟨x, hx, hux⟩
      exact ⟨x, hp.mem_iff.mpr hx, hux⟩
  by_cases h1 : rows1.any (fun r => !r.isObj) = true
  · rw [if_pos h1, if_pos (hany ▸ h1)]
  · rw [if_neg h1, if_neg (hany ▸ h1)]
    exact insertionSort_eq_of_perm ((hp.filterMap roundOf?).dedup)

/-- C6: the id sequence returned by `fetch_driver_ids_from_rankings` is
strictly ascending and duplicate-free; the extraction is invariant under
any permutation of the input rows; extraction is deterministic (two runs
on the same input agree); and the same holds of
`rounds_from_races_payload`. -/
theorem claim_C6_extraction_sorted_dedup_perm :
    (∀ (payload : List (String × JVal)) (l : List JVal),
        fetch_driver_ids_from_rankings payload = some l →
        List.Sorted jlt l ∧ l.Nodup) ∧
    (∀ rows1 rows2 : List JVal, List.Perm rows1 rows2 →
        extract_ids_rows rows1 = extract_ids_rows rows2) ∧
    (∀ payload : List (String × JVal),
        fetch_driver_ids_from_rankings payload = fetch_driver_ids_from_rankings payload) ∧
    (∀ p : JVal,
        List.Sorted (· < ·) (rounds_from_races_payload p) ∧ (rounds_from_races_payload p).Nodup) ∧
    (∀ rows1 rows2 : List JVal, List.Perm rows1 rows2 → roundsCore rows1 = roundsCore rows2) ∧
    (∀ p : JVal, rounds_from_races_payload p = rounds_from_races_payload p) := by
  refine ⟨?_, extract_ids_rows_perm, fun _ => rfl, ?_, roundsCore_perm, fun _ => rfl⟩
  · intro payload l h
    rw [fetch_driver_ids_from_rankings] at h
    obtain ⟨rows, _, hrows⟩ := Option.bind_eq_some.mp h
    exact extract_ids_rows_sorted rows l hrows
  · intro p
    rw [rounds_from_races_payload]
    split
    · simp
    · split
      · simp
      · exact roundsCore_sorted_nodup _

/-- Two-row listing and its swap, for the C6 witness. -/
def rowsSwapA : List JVal :=
  [.obj [("driver", .obj [("id", .int 5)])], .obj [("driver", .obj [("id", .int 3)])]]

/-- The same two rows in the opposite order. -/
def rowsSwapB : List JVal :=
  [.obj [("driver", .obj [("id", .int 3)])], .obj [("driver", .obj [("id", .int 5)])]]

/-- C6 witness: concrete instantiation, hypotheses discharged by
evaluation or an explicit permutation. -/
theorem claim_C6_witness :
    fetch_driver_ids_from_rankings [("response", driverRows)] = some [.int 3, .int 5] ∧
    (List.Sorted jlt [JVal.int 3, JVal.int 5] ∧ ([JVal.int 3, JVal.int 5] : List JVal).Nodup) ∧
    List.Perm rowsSwapA rowsSwapB ∧
    extract_ids_rows rowsSwapA = extract_ids_rows rowsSwapB :=
  ⟨rfl,
    claim_C6_extraction_sorted_dedup_perm.1 [("response", driverRows)] [.int 3, .int 5] rfl,
    List.Perm.swap _ _ [],
    claim_C6_extraction_sorted_dedup_perm.2.1 rowsSwapA rowsSwapB (List.Perm.swap _ _ [])⟩

/-- C9: a falsy id (`0`, `""`, `None`, or a missing `id` key) never
contributes: such values cannot appear in the returned id list, and a
row contributing nothing can be dropped without changing the result. -/
theorem claim_C9_falsy_ids_excluded :
    (∀ (payload : List (String × JVal)) (l : List JVal),
        fetch_driver_ids_from_rankings payload = some l →
        JVal.int 0 ∉ l ∧ JVal.str "" ∉ l ∧ JVal.null ∉ l) ∧
    (∀ (row : JVal) (rows : List JVal), goodId? row = none →
        extract_ids_rows (row :: rows) = extract_ids_rows rows) ∧
    goodId? (.obj [("driver", .obj [("id", .int 0)])]) = none ∧
    goodId? (.obj [("driver", .obj [("id", .str "")])]) = none ∧
    goodId? (.obj [("driver", .obj [("id", .null)])]) = none ∧
    goodId? (.obj [("driver", .obj [])]) = none := by
  refine ⟨?_, ?_, rfl, rfl, rfl, rfl⟩
  · intro payload l h
    rw [fetch_driver_ids_from_rankings] at h
    obtain ⟨rows, _, hrows⟩ := Option.bind_eq_some.mp h
    refine ⟨?_, ?_, ?_⟩ <;> intro hmem
    · obtain ⟨row, _, hrow⟩ := extract_ids_rows_mem rows l hrows _ hmem
      cases goodId?_truthy row _ hrow
    · obtain ⟨row, _, hrow⟩ := extract_ids_rows_mem rows l hrows _ hmem
      cases goodId?_truthy row _ hrow
    · obtain ⟨row, _, hrow⟩ := extract_ids_rows_mem rows l hrows _ hmem
      cases goodId?_truthy row _ hrow
  · intro row rows h
    simp only [extract_ids_rows, collectIds?, List.filterMap_cons, h]

/-- Rows with falsy or missing ids around one good id, for the C9
witness. -/
def falsyRows : JVal :=
  .arr [.obj [("driver", .obj [("id", .int 0)])],
        .obj [("driver", .obj [("id", .int 5)])],
        .obj [("driver", .obj [])],
        .obj [("driver", .obj [("id", .str "")])],
        .obj [("driver", .obj [("id", .null)])]]

/-- C9 witness: concrete instantiation, hypotheses discharged by
evaluation. -/
theorem claim_C9_witness :
    fetch_driver_ids_from_rankings [("response", falsyRows)] = some [.int 5] ∧
    (JVal.int 0 ∉ ([JVal.int 5] : List JVal) ∧ JVal.str "" ∉ ([JVal.int 5] : List JVal) ∧
      JVal.null ∉ ([JVal.int 5] : List JVal)) ∧
    goodId? (.obj [("driver", .obj [("id", .int 0)])]) = none ∧
    extract_ids_rows [.obj [("driver", .obj [("id", .int 0)])]] = extract_ids_rows [] :=
  ⟨rfl,
    claim_C9_falsy_ids_excluded.1 [("response", falsyRows)] [.int 5] rfl,
    rfl,
    claim_C9_falsy_ids_excluded.2.1 (.obj [("driver", .obj [("id", .int 0)])]) [] rfl⟩
